import Mathlib

/-!
Shallow embedding of the `retryhttp` Go library (src/retry.go) and proofs of
the specification's claims about it.

Modelling conventions:
* `time.Duration` is `Int` (nanoseconds, Go int64).
* Go `error` values are `GoError`; `nil` error is `none : Option GoError`.
  `ErrMaxRetriesExceeded` (src/retry.go:28) is the distinct constructor
  `GoError.maxRetriesExceeded`; context errors and I/O errors use the other
  constructors, so the sentinel's `errors.New` identity is preserved.
* An `io.ReadCloser` request body is modelled by what `io.ReadAll` of it
  yields: `Except GoError (List Nat)` (error, or the byte list).
* `req.GetBody` is a closure returning `(io.ReadCloser, error)`; in this pure
  model it is the (deterministic) result of calling it:
  `Option (Except GoError (List Nat))`.
* The underlying `http.Client` is an oracle `transport : Nat → AttemptOutcome`
  giving the outcome of the i-th attempt.
* The request context is an oracle `ctx : Nat → Option GoError` answering the
  i-th cancellation checkpoint.  Each loop iteration consumes exactly three
  checkpoints: `3*attempt` (the `ctx.Err()` check at the top of the loop,
  src/retry.go:144), `3*attempt+1` (the check after `client.Do`,
  src/retry.go:160), and `3*attempt+2` (whether `ctx.Done()` wins the
  `select` against `time.After(backoff)`, src/retry.go:175-183).
* `float64` arithmetic in the backoff update (src/retry.go:177) is modelled
  exactly over `ℚ`, with Go's float→Duration conversion as truncation
  toward zero.
* The result carries two ghost traces: `sent`, the request body present at
  each transport invocation (one entry per attempt), and `waits`, the backoff
  durations of the waits that fully elapsed.
-/

/-- Model of `*http.Response`: only the status code matters to the engine. -/
structure Response where
  statusCode : Int
  deriving Repr, DecidableEq

/-- Model of Go `error` values that appear in this library. -/
inductive GoError where
  /-- The sentinel `ErrMaxRetriesExceeded` (src/retry.go:28). -/
  | maxRetriesExceeded
  /-- `context.Canceled`. -/
  | canceled
  /-- `context.DeadlineExceeded`. -/
  | deadlineExceeded
  /-- Any other error (I/O failure, transport failure, ...). -/
  | other (msg : String)
  deriving Repr, DecidableEq

instance {ε α : Type} [DecidableEq ε] [DecidableEq α] : DecidableEq (Except ε α) := fun x y =>
  match x, y with
  | Except.ok a, Except.ok b =>
    if h : a = b then isTrue (by rw [h]) else isFalse (fun hh => h (Except.ok.injEq .. ▸ hh))
  | Except.error a, Except.error b =>
    if h : a = b then isTrue (by rw [h]) else isFalse (fun hh => h (Except.error.injEq .. ▸ hh))
  | Except.ok _, Except.error _ => isFalse (fun hh => Except.noConfusion hh)
  | Except.error _, Except.ok _ => isFalse (fun hh => Except.noConfusion hh)

/-- The outcome of one attempt: `(resp, err)` from `c.client.Do(req)`. -/
structure AttemptOutcome where
  resp : Option Response
  err : Option GoError
  deriving Repr, DecidableEq

/-- Model of the request fields the engine touches: `Body` and `GetBody`. -/
structure Request where
  body : Option (Except GoError (List Nat))
  getBody : Option (Except GoError (List Nat))
  deriving Repr, DecidableEq

/-- Model of `retryhttp.Client` configuration (src/retry.go:34-41); the
underlying `http.Client` is supplied separately as the transport oracle. -/
structure Client where
  maxRetries : Int
  retryCondition : Option Response → Option GoError → Bool
  initialBackoff : Int
  backoffMultiplier : ℚ
  maxBackoff : Int

/-- `DefaultRetryCondition` (src/retry.go:90-100): retry on any non-nil
error, or on a non-nil response with status in [400, 500). -/
def DefaultRetryCondition (resp : Option Response) (err : Option GoError) : Bool :=
  match err with
  | some _ => true
  | none =>
    match resp with
    | some r => if 400 ≤ r.statusCode ∧ r.statusCode < 500 then true else false
    | none => false

/-- Go's `time.Duration(f)` conversion of a float: truncation toward zero. -/
def goTrunc (q : ℚ) : Int :=
  if 0 ≤ q then ⌊q⌋ else -⌊-q⌋

/-- The backoff update after a wait elapses (src/retry.go:177-180):
`backoff = Duration(float64(backoff) * multiplier)`, capped at `maxBackoff`. -/
def nextBackoff (c : Client) (backoff : Int) : Int :=
  let b := goTrunc ((backoff : ℚ) * c.backoffMultiplier)
  if b > c.maxBackoff then c.maxBackoff else b

/-- Result of `Client.Do`, with the ghost traces described above. -/
structure DoResult where
  resp : Option Response
  err : Option GoError
  sent : List (Option (Except GoError (List Nat)))
  waits : List Int
  deriving Repr, DecidableEq

/-- The body reset at the top of an iteration (src/retry.go:149-155):
for `attempt > 0`, if `Body` and `GetBody` are non-nil, call `GetBody`;
abort with its error on failure, else install the fresh body. -/
def resetBody (attempt : Nat) (req : Request) : Except GoError Request :=
  if attempt > 0 then
    match req.body, req.getBody with
    | some _, some (Except.error getErr) => Except.error getErr
    | some _, some (Except.ok bs) => Except.ok { req with body := some (Except.ok bs) }
    | _, _ => Except.ok req
  else
    Except.ok req

/-- The attempt loop of `Client.Do` (src/retry.go:142-189).  `fuel` is the
number of remaining iterations (`maxRetries + 1 - attempt`), `attempt` the
current attempt index, `backoff` the current backoff, and `resp`/`err` the
loop-carried variables.  After the loop, a nil `err` is replaced by the
sentinel (src/retry.go:186-188). -/
def doLoop (c : Client) (ctx : Nat → Option GoError) (transport : Nat → AttemptOutcome) :
    Nat → Nat → Request → Int → Option Response → Option GoError → DoResult
  | 0, _, _, _, resp, err =>
    ⟨resp, if err = none then some GoError.maxRetriesExceeded else err, [], []⟩
  | fuel + 1, attempt, req, backoff, _, _ =>
    match ctx (3 * attempt) with
    | some cerr => ⟨none, some cerr, [], []⟩
    | none =>
      match resetBody attempt req with
      | Except.error getErr => ⟨none, some getErr, [], []⟩
      | Except.ok req' =>
        let out := transport attempt
        match ctx (3 * attempt + 1) with
        | some cerr => ⟨none, some cerr, [req'.body], []⟩
        | none =>
          if !(c.retryCondition out.resp out.err) then
            ⟨out.resp, out.err, [req'.body], []⟩
          else
            match ctx (3 * attempt + 2) with
            | some cerr => ⟨none, some cerr, [req'.body], []⟩
            | none =>
              let r := doLoop c ctx transport fuel (attempt + 1) req'
                (nextBackoff c backoff) out.resp out.err
              ⟨r.resp, r.err, req'.body :: r.sent, backoff :: r.waits⟩

/-- The body-buffering step of `Client.Do` (src/retry.go:126-138): if `Body`
is non-nil and `GetBody` is nil, read the body fully; on failure return the
read error; on success install a regeneration function and a fresh copy. -/
def bufferBody (req : Request) : Except GoError Request :=
  match req.body, req.getBody with
  | some stream, none =>
    match stream with
    | Except.error readErr => Except.error readErr
    | Except.ok bodyBytes =>
      Except.ok ⟨some (Except.ok bodyBytes), some (Except.ok bodyBytes)⟩
  | _, _ => Except.ok req

/-- `Client.Do` (src/retry.go:121-190): buffer the body, then run the
attempt loop starting from `initialBackoff` with `maxRetries + 1` budgeted
iterations. -/
def Client.Do (c : Client) (ctx : Nat → Option GoError)
    (transport : Nat → AttemptOutcome) (req : Request) : DoResult :=
  match bufferBody req with
  | Except.error readErr => ⟨none, some readErr, [], []⟩
  | Except.ok req' =>
      doLoop c ctx transport (c.maxRetries + 1).toNat 0 req' c.initialBackoff none none

/-! ### Structural lemmas about the body-reset and buffering steps -/

theorem resetBody_getBody_eq {attempt : Nat} {req req' : Request}
    (h : resetBody attempt req = Except.ok req') : req'.getBody = req.getBody := by
  obtain ⟨b0, g0⟩ := req
  cases attempt with
  | zero => cases h; rfl
  | succ n =>
    unfold resetBody at h
    rw [if_pos (Nat.succ_pos n)] at h
    rcases b0 with _ | bod <;> rcases g0 with _ | gb
    · cases h; rfl
    · cases h; rfl
    · cases h; rfl
    · rcases gb with e | bs
      · exact Except.noConfusion h
      · cases h; rfl

theorem resetBody_ok_of_good (attempt : Nat) {req : Request}
    (hget : ∀ e, req.getBody ≠ some (Except.error e)) :
    ∃ req', resetBody attempt req = Except.ok req' ∧ req'.getBody = req.getBody := by
  obtain ⟨b0, g0⟩ := req
  cases attempt with
  | zero => exact ⟨⟨b0, g0⟩, rfl, rfl⟩
  | succ n =>
    unfold resetBody
    rw [if_pos (Nat.succ_pos n)]
    rcases b0 with _ | bod <;> rcases g0 with _ | gb
    · exact ⟨_, rfl, rfl⟩
    · exact ⟨_, rfl, rfl⟩
    · exact ⟨_, rfl, rfl⟩
    · rcases gb with e | bs
      · exact absurd rfl (hget e)
      · exact ⟨_, rfl, rfl⟩

theorem resetBody_const {attempt : Nat} {bs : List Nat} :
    resetBody attempt ⟨some (Except.ok bs), some (Except.ok bs)⟩ =
      Except.ok (⟨some (Except.ok bs), some (Except.ok bs)⟩ : Request) := by
  cases attempt with
  | zero => rfl
  | succ n =>
    unfold resetBody
    rw [if_pos (Nat.succ_pos n)]

theorem bufferBody_cases (req : Request) :
    (∃ e, req.body = some (Except.error e) ∧ req.getBody = none ∧
      bufferBody req = Except.error e) ∨
    (∃ req', bufferBody req = Except.ok req' ∧
      (req'.getBody = req.getBody ∨ ∃ bs, req'.getBody = some (Except.ok bs))) := by
  obtain ⟨b0, g0⟩ := req
  rcases b0 with _ | stream <;> rcases g0 with _ | gb
  · exact Or.inr ⟨_, rfl, Or.inl rfl⟩
  · exact Or.inr ⟨_, rfl, Or.inl rfl⟩
  · rcases stream with e | bodyBytes
    · exact Or.inl ⟨e, rfl, rfl, rfl⟩
    · exact Or.inr ⟨⟨some (Except.ok bodyBytes), some (Except.ok bodyBytes)⟩, rfl,
        Or.inr ⟨bodyBytes, rfl⟩⟩
  · exact Or.inr ⟨_, rfl, Or.inl rfl⟩

/-! ### Basic trace lemmas about the attempt loop -/

theorem doLoop_sent_length_le (c : Client) (ctx : Nat → Option GoError)
    (transport : Nat → AttemptOutcome) :
    ∀ (fuel attempt : Nat) (req : Request) (backoff : Int)
      (re : Option Response) (er : Option GoError),
    (doLoop c ctx transport fuel attempt req backoff re er).sent.length ≤ fuel := by
  intro fuel
  induction fuel with
  | zero => intro attempt req backoff re er; simp [doLoop]
  | succ fuel ih =>
    intro attempt req backoff re er
    simp only [doLoop]
    cases hc : ctx (3 * attempt) with
    | some cerr => simp
    | none =>
      cases hr : resetBody attempt req with
      | error getErr => simp
      | ok req' =>
        cases hc1 : ctx (3 * attempt + 1) with
        | some cerr => simp
        | none =>
          cases hcond : c.retryCondition (transport attempt).resp (transport attempt).err with
          | false => simp [hcond]
          | true =>
            cases hc2 : ctx (3 * attempt + 2) with
            | some cerr => simp [hcond]
            | none =>
              simp only [hcond, Bool.not_true, Bool.false_eq_true, if_false, List.length_cons]
              exact Nat.succ_le_succ (ih _ _ _ _ _)

theorem doLoop_waits_head (c : Client) (ctx : Nat → Option GoError)
    (transport : Nat → AttemptOutcome)
    (fuel attempt : Nat) (req : Request) (backoff : Int)
    (re : Option Response) (er : Option GoError) :
    (doLoop c ctx transport fuel attempt req backoff re er).waits = [] ∨
    (doLoop c ctx transport fuel attempt req backoff re er).waits.head? = some backoff := by
  cases fuel with
  | zero => exact Or.inl rfl
  | succ fuel =>
    simp only [doLoop]
    cases hc : ctx (3 * attempt) with
    | some cerr => exact Or.inl rfl
    | none =>
      cases hr : resetBody attempt req with
      | error getErr => exact Or.inl rfl
      | ok req' =>
        cases hc1 : ctx (3 * attempt + 1) with
        | some cerr => exact Or.inl rfl
        | none =>
          cases hcond : c.retryCondition (transport attempt).resp (transport attempt).err with
          | false => simp
          | true =>
            cases hc2 : ctx (3 * attempt + 2) with
            | some cerr => simp
            | none => simp

theorem resetBody_error_getBody {attempt : Nat} {req : Request} {e : GoError}
    (h : resetBody attempt req = Except.error e) :
    req.getBody = some (Except.error e) := by
  obtain ⟨b0, g0⟩ := req
  cases attempt with
  | zero => exact Except.noConfusion h
  | succ n =>
    unfold resetBody at h
    rw [if_pos (Nat.succ_pos n)] at h
    rcases b0 with _ | bod <;> rcases g0 with _ | gb
    · exact Except.noConfusion h
    · exact Except.noConfusion h
    · exact Except.noConfusion h
    · rcases gb with e' | bs
      · cases h; rfl
      · exact Except.noConfusion h

/-! ### The loop on a run whose first N outcomes are retryable -/

theorem doLoop_first_nonretryable (c : Client) (ctx : Nat → Option GoError)
    (transport : Nat → AttemptOutcome) (hctx : ∀ k, ctx k = none) :
    ∀ (N fuel attempt : Nat) (req : Request) (backoff : Int)
      (re : Option Response) (er : Option GoError),
    N < fuel →
    (∀ e, req.getBody ≠ some (Except.error e)) →
    (∀ i, i < N →
      c.retryCondition (transport (attempt + i)).resp (transport (attempt + i)).err = true) →
    c.retryCondition (transport (attempt + N)).resp (transport (attempt + N)).err = false →
    (doLoop c ctx transport fuel attempt req backoff re er).sent.length = N + 1 ∧
    (doLoop c ctx transport fuel attempt req backoff re er).resp = (transport (attempt + N)).resp ∧
    (doLoop c ctx transport fuel attempt req backoff re er).err = (transport (attempt + N)).err := by
  intro N
  induction N with
  | zero =>
    intro fuel attempt req backoff re er hfuel hget _ hstop
    obtain ⟨fuel, rfl⟩ : ∃ f, fuel = f + 1 := ⟨fuel - 1, by omega⟩
    obtain ⟨req', hreq', _⟩ := resetBody_ok_of_good attempt hget
    rw [Nat.add_zero] at hstop
    simp [doLoop, hctx, hreq', hstop]
  | succ N ih =>
    intro fuel attempt req backoff re er hfuel hget hret hstop
    obtain ⟨fuel, rfl⟩ : ∃ f, fuel = f + 1 := ⟨fuel - 1, by omega⟩
    obtain ⟨req', hreq', hgb⟩ := resetBody_ok_of_good attempt hget
    have hcond0 : c.retryCondition (transport attempt).resp (transport attempt).err = true := by
      have h := hret 0 (Nat.succ_pos N)
      rwa [Nat.add_zero] at h
    have hget' : ∀ e, req'.getBody ≠ some (Except.error e) := by rw [hgb]; exact hget
    have hret' : ∀ i, i < N →
        c.retryCondition (transport (attempt + 1 + i)).resp
          (transport (attempt + 1 + i)).err = true := by
      intro i hi
      have h := hret (i + 1) (by omega)
      rwa [show attempt + (i + 1) = attempt + 1 + i by omega] at h
    have hstop' : c.retryCondition (transport (attempt + 1 + N)).resp
        (transport (attempt + 1 + N)).err = false := by
      rwa [show attempt + (N + 1) = attempt + 1 + N by omega] at hstop
    obtain ⟨h1, h2, h3⟩ := ih fuel (attempt + 1) req' (nextBackoff c backoff)
      (transport attempt).resp (transport attempt).err (by omega) hget' hret' hstop'
    rw [show attempt + (N + 1) = attempt + 1 + N by omega]
    simp [doLoop, hctx, hreq', hcond0, h1, h2, h3]

/-! ### The loop on a run where every outcome is retryable -/

theorem doLoop_all_retryable (c : Client) (ctx : Nat → Option GoError)
    (transport : Nat → AttemptOutcome) (hctx : ∀ k, ctx k = none)
    (hret : ∀ i, c.retryCondition (transport i).resp (transport i).err = true) :
    ∀ (fuel attempt : Nat) (req : Request) (backoff : Int)
      (re : Option Response) (er : Option GoError),
    (∀ e, req.getBody ≠ some (Except.error e)) →
    (doLoop c ctx transport fuel attempt req backoff re er).sent.length = fuel ∧
    (doLoop c ctx transport fuel attempt req backoff re er).waits.length = fuel := by
  intro fuel
  induction fuel with
  | zero => intro attempt req backoff re er _; simp [doLoop]
  | succ fuel ih =>
    intro attempt req backoff re er hget
    obtain ⟨req', hreq', hgb⟩ := resetBody_ok_of_good attempt hget
    have hget' : ∀ e, req'.getBody ≠ some (Except.error e) := by rw [hgb]; exact hget
    obtain ⟨h1, h2⟩ := ih (attempt + 1) req' (nextBackoff c backoff)
      (transport attempt).resp (transport attempt).err hget'
    simp [doLoop, hctx, hreq', hret attempt, h1, h2]

/-! ### Bodies delivered to the transport after buffering -/

theorem doLoop_sent_const (c : Client) (ctx : Nat → Option GoError)
    (transport : Nat → AttemptOutcome) (bs : List Nat) :
    ∀ (fuel attempt : Nat) (backoff : Int) (re : Option Response) (er : Option GoError),
    ∀ x ∈ (doLoop c ctx transport fuel attempt
      ⟨some (Except.ok bs), some (Except.ok bs)⟩ backoff re er).sent,
      x = some (Except.ok bs) := by
  intro fuel
  induction fuel with
  | zero =>
    intro attempt backoff re er x hx
    simp [doLoop] at hx
  | succ fuel ih =>
    intro attempt backoff re er x hx
    cases h0 : ctx (3 * attempt) with
    | some cerr => simp [doLoop, h0] at hx
    | none =>
      cases h1 : ctx (3 * attempt + 1) with
      | some cerr =>
        simp [doLoop, h0, h1, resetBody_const] at hx
        exact hx
      | none =>
        cases hcond : c.retryCondition (transport attempt).resp (transport attempt).err with
        | false =>
          simp [doLoop, h0, h1, hcond, resetBody_const] at hx
          exact hx
        | true =>
          cases h2 : ctx (3 * attempt + 2) with
          | some cerr =>
            simp [doLoop, h0, h1, h2, hcond, resetBody_const] at hx
            exact hx
          | none =>
            simp [doLoop, h0, h1, h2, hcond, resetBody_const] at hx
            rcases hx with rfl | hx
            · rfl
            · exact ih (attempt + 1) (nextBackoff c backoff) _ _ x hx

/-! ### When the loop can return the sentinel -/

theorem doLoop_sentinel (c : Client) (ctx : Nat → Option GoError)
    (transport : Nat → AttemptOutcome)
    (hctx : ∀ k, ctx k ≠ some GoError.maxRetriesExceeded)
    (htr : ∀ i, (transport i).err ≠ some GoError.maxRetriesExceeded) :
    ∀ (fuel attempt : Nat) (req : Request) (backoff : Int)
      (re : Option Response) (er : Option GoError),
    (∀ e, req.getBody = some (Except.error e) → e ≠ GoError.maxRetriesExceeded) →
    er ≠ some GoError.maxRetriesExceeded →
    (doLoop c ctx transport fuel attempt req backoff re er).err =
      some GoError.maxRetriesExceeded →
    (doLoop c ctx transport fuel attempt req backoff re er).sent.length = fuel ∧
    ((fuel = 0 ∧ er = none ∧
        (doLoop c ctx transport fuel attempt req backoff re er).resp = re) ∨
     (1 ≤ fuel ∧ (transport (attempt + fuel - 1)).err = none ∧
        (doLoop c ctx transport fuel attempt req backoff re er).resp =
          (transport (attempt + fuel - 1)).resp)) := by
  intro fuel
  induction fuel with
  | zero =>
    intro attempt req backoff re er _ her hs
    rcases her0 : er with _ | e
    · exact ⟨rfl, Or.inl ⟨rfl, rfl, rfl⟩⟩
    · rw [her0] at hs her
      simp [doLoop] at hs
      exact absurd (by rw [hs]) her
  | succ fuel ih =>
    intro attempt req backoff re er hget her hs
    cases h0 : ctx (3 * attempt) with
    | some cerr =>
      rw [show (doLoop c ctx transport (fuel + 1) attempt req backoff re er) =
        ⟨none, some cerr, [], []⟩ by simp [doLoop, h0]] at hs
      exact absurd (hs ▸ h0) (hctx (3 * attempt))
    | none =>
      cases hres : resetBody attempt req with
      | error getErr =>
        rw [show (doLoop c ctx transport (fuel + 1) attempt req backoff re er) =
          ⟨none, some getErr, [], []⟩ by simp [doLoop, h0, hres]] at hs
        have : getErr = GoError.maxRetriesExceeded := by
          simpa using hs
        exact absurd rfl (this ▸ hget getErr (resetBody_error_getBody hres))
      | ok req' =>
        cases h1 : ctx (3 * attempt + 1) with
        | some cerr =>
          rw [show (doLoop c ctx transport (fuel + 1) attempt req backoff re er) =
            ⟨none, some cerr, [req'.body], []⟩ by simp [doLoop, h0, hres, h1]] at hs
          exact absurd (hs ▸ h1) (hctx (3 * attempt + 1))
        | none =>
          cases hcond : c.retryCondition (transport attempt).resp (transport attempt).err with
          | false =>
            rw [show (doLoop c ctx transport (fuel + 1) attempt req backoff re er) =
              ⟨(transport attempt).resp, (transport attempt).err, [req'.body], []⟩ by
                simp [doLoop, h0, hres, h1, hcond]] at hs
            exact absurd hs (htr attempt)
          | true =>
            cases h2 : ctx (3 * attempt + 2) with
            | some cerr =>
              rw [show (doLoop c ctx transport (fuel + 1) attempt req backoff re er) =
                ⟨none, some cerr, [req'.body], []⟩ by simp [doLoop, h0, hres, h1, hcond, h2]] at hs
              exact absurd (hs ▸ h2) (hctx (3 * attempt + 2))
            | none =>
              have hunf : (doLoop c ctx transport (fuel + 1) attempt req backoff re er) =
                  ⟨(doLoop c ctx transport fuel (attempt + 1) req' (nextBackoff c backoff)
                      (transport attempt).resp (transport attempt).err).resp,
                   (doLoop c ctx transport fuel (attempt + 1) req' (nextBackoff c backoff)
                      (transport attempt).resp (transport attempt).err).err,
                   req'.body :: (doLoop c ctx transport fuel (attempt + 1) req'
                      (nextBackoff c backoff) (transport attempt).resp (transport attempt).err).sent,
                   backoff :: (doLoop c ctx transport fuel (attempt + 1) req'
                      (nextBackoff c backoff) (transport attempt).resp (transport attempt).err).waits⟩ := by
                simp [doLoop, h0, hres, h1, hcond, h2]
              rw [hunf] at hs ⊢
              have hget' : ∀ e, req'.getBody = some (Except.error e) →
                  e ≠ GoError.maxRetriesExceeded := by
                rw [resetBody_getBody_eq hres]; exact hget
              obtain ⟨hlen, hdisj⟩ := ih (attempt + 1) req' (nextBackoff c backoff)
                (transport attempt).resp (transport attempt).err hget' (htr attempt) hs
              refine ⟨by simpa using hlen, Or.inr ?_⟩
              rcases hdisj with ⟨hf0, hern, hresp⟩ | ⟨hf1, hern, hresp⟩
              · subst hf0
                exact ⟨Nat.le_refl 1, by simpa using hern, by simpa using hresp⟩
              · refine ⟨by omega, ?_, ?_⟩
                · rwa [show attempt + (fuel + 1) - 1 = attempt + 1 + fuel - 1 by omega]
                · rw [show attempt + (fuel + 1) - 1 = attempt + 1 + fuel - 1 by omega]
                  exact hresp

/-! ### Backoff arithmetic -/

theorem nextBackoff_bounds (c : Client) {b : Int}
    (hm : 1 ≤ c.backoffMultiplier) (hb : 0 ≤ b) (hcap : b ≤ c.maxBackoff) :
    b ≤ nextBackoff c b ∧ nextBackoff c b ≤ c.maxBackoff := by
  have hbq : (0 : ℚ) ≤ (b : ℚ) := by exact_mod_cast hb
  have hq : (b : ℚ) ≤ (b : ℚ) * c.backoffMultiplier := le_mul_of_one_le_right hbq hm
  have h0q : (0 : ℚ) ≤ (b : ℚ) * c.backoffMultiplier := le_trans hbq hq
  have hfl : b ≤ ⌊(b : ℚ) * c.backoffMultiplier⌋ := Int.le_floor.mpr hq
  unfold nextBackoff goTrunc
  rw [if_pos h0q]
  by_cases hgt : ⌊(b : ℚ) * c.backoffMultiplier⌋ > c.maxBackoff
  · rw [if_pos hgt]
    exact ⟨hcap, le_refl _⟩
  · rw [if_neg hgt]
    exact ⟨hfl, by omega⟩

/-! ### The waits trace: first element, successive relation, bounds -/

theorem doLoop_waits_chain (c : Client) (ctx : Nat → Option GoError)
    (transport : Nat → AttemptOutcome) :
    ∀ (fuel attempt : Nat) (req : Request) (backoff : Int)
      (re : Option Response) (er : Option GoError),
    List.Chain' (fun x y => y = nextBackoff c x)
      (doLoop c ctx transport fuel attempt req backoff re er).waits := by
  intro fuel
  induction fuel with
  | zero => intro attempt req backoff re er; simp [doLoop]
  | succ fuel ih =>
    intro attempt req backoff re er
    simp only [doLoop]
    cases h0 : ctx (3 * attempt) with
    | some cerr => simp
    | none =>
      cases hres : resetBody attempt req with
      | error getErr => simp
      | ok req' =>
        cases h1 : ctx (3 * attempt + 1) with
        | some cerr => simp
        | none =>
          cases hcond : c.retryCondition (transport attempt).resp (transport attempt).err with
          | false => simp [hcond]
          | true =>
            cases h2 : ctx (3 * attempt + 2) with
            | some cerr => simp [hcond]
            | none =>
              simp only [hcond, Bool.not_true, Bool.false_eq_true, if_false]
              refine List.chain'_cons'.mpr ⟨?_, ih (attempt + 1) req' (nextBackoff c backoff)
                (transport attempt).resp (transport attempt).err⟩
              intro y hy
              rcases doLoop_waits_head c ctx transport fuel (attempt + 1) req'
                (nextBackoff c backoff) (transport attempt).resp (transport attempt).err with
                hnil | hhd
              · rw [hnil] at hy; exact absurd hy (by simp)
              · rw [hhd] at hy
                cases hy
                rfl

theorem doLoop_waits_le (c : Client) (ctx : Nat → Option GoError)
    (transport : Nat → AttemptOutcome) (hm : 1 ≤ c.backoffMultiplier) :
    ∀ (fuel attempt : Nat) (req : Request) (backoff : Int)
      (re : Option Response) (er : Option GoError),
    0 ≤ backoff → backoff ≤ c.maxBackoff →
    (∀ w ∈ (doLoop c ctx transport fuel attempt req backoff re er).waits,
      w ≤ c.maxBackoff) ∧
    List.Chain' (· ≤ ·) (doLoop c ctx transport fuel attempt req backoff re er).waits := by
  intro fuel
  induction fuel with
  | zero => intro attempt req backoff re er _ _; simp [doLoop]
  | succ fuel ih =>
    intro attempt req backoff re er hb hcap
    simp only [doLoop]
    cases h0 : ctx (3 * attempt) with
    | some cerr => simp
    | none =>
      cases hres : resetBody attempt req with
      | error getErr => simp
      | ok req' =>
        cases h1 : ctx (3 * attempt + 1) with
        | some cerr => simp
        | none =>
          cases hcond : c.retryCondition (transport attempt).resp (transport attempt).err with
          | false => simp [hcond]
          | true =>
            cases h2 : ctx (3 * attempt + 2) with
            | some cerr => simp [hcond]
            | none =>
              simp only [hcond, Bool.not_true, Bool.false_eq_true, if_false]
              obtain ⟨hle, hle2⟩ := nextBackoff_bounds c hm hb hcap
              obtain ⟨hbd, hch⟩ := ih (attempt + 1) req' (nextBackoff c backoff)
                (transport attempt).resp (transport attempt).err (le_trans hb hle) hle2
              constructor
              · intro w hw
                rcases List.mem_cons.mp hw with rfl | hw
                · exact hcap
                · exact hbd w hw
              · refine List.chain'_cons'.mpr ⟨?_, hch⟩
                intro y hy
                rcases doLoop_waits_head c ctx transport fuel (attempt + 1) req'
                  (nextBackoff c backoff) (transport attempt).resp (transport attempt).err with
                  hnil | hhd
                · rw [hnil] at hy; exact absurd hy (by simp)
                · rw [hhd] at hy
                  cases hy
                  exact hle

/-! ### Claim theorems -/

/-- Claim C1: for every retry condition and every sequence of attempt outcomes
in which the first N outcomes are judged retryable and outcome N+1 is not
(with N at most maxRetries), `Do` performs exactly N+1 attempts and returns
the (N+1)-th outcome's response and error unchanged.  The run is decided by
the outcomes alone: the context never cancels, body buffering succeeds, and a
caller-supplied body-regeneration function never fails. -/
theorem Do_first_nonretryable_returns_unchanged
    (c : Client) (ctx : Nat → Option GoError) (transport : Nat → AttemptOutcome)
    (req : Request) (N : Nat)
    (hN : (N : Int) ≤ c.maxRetries)
    (hctx : ∀ k, ctx k = none)
    (hret : ∀ i, i < N →
      c.retryCondition (transport i).resp (transport i).err = true)
    (hstop : c.retryCondition (transport N).resp (transport N).err = false)
    (hbuf : ∀ e, ¬(req.body = some (Except.error e) ∧ req.getBody = none))
    (hget : ∀ e, req.getBody ≠ some (Except.error e)) :
    (Client.Do c ctx transport req).sent.length = N + 1 ∧
    (Client.Do c ctx transport req).resp = (transport N).resp ∧
    (Client.Do c ctx transport req).err = (transport N).err := by
  rcases bufferBody_cases req with ⟨e, hb, hg, _⟩ | ⟨req', hbuf', hgb⟩
  · exact absurd ⟨hb, hg⟩ (hbuf e)
  · have hDo : Client.Do c ctx transport req =
        doLoop c ctx transport ((c.maxRetries + 1).toNat) 0 req' c.initialBackoff none none := by
      simp [Client.Do, hbuf']
    rw [hDo]
    have hget' : ∀ e, req'.getBody ≠ some (Except.error e) := by
      rcases hgb with h | ⟨bs, h⟩
      · rw [h]; exact hget
      · rw [h]; intro e he; exact Except.noConfusion (Option.some.inj he)
    have hfuel : N < (c.maxRetries + 1).toNat := by omega
    have h := doLoop_first_nonretryable c ctx transport hctx N ((c.maxRetries + 1).toNat)
      0 req' c.initialBackoff none none hfuel hget'
      (by intro i hi; simpa using hret i hi) (by simpa using hstop)
    simpa using h

/-- Claim C1 witness: maxRetries = 2, default condition, the transport
answers 403 then 200; the run makes exactly 2 attempts and returns the 200
outcome unchanged. -/
theorem Do_first_nonretryable_returns_unchanged_witness :
    (Client.Do ⟨2, DefaultRetryCondition, 10, 2, 15⟩ (fun _ => none)
      (fun i => if i = 0 then ⟨some ⟨403⟩, none⟩ else ⟨some ⟨200⟩, none⟩)
      ⟨none, none⟩).sent.length = 1 + 1 ∧
    (Client.Do ⟨2, DefaultRetryCondition, 10, 2, 15⟩ (fun _ => none)
      (fun i => if i = 0 then ⟨some ⟨403⟩, none⟩ else ⟨some ⟨200⟩, none⟩)
      ⟨none, none⟩).resp = some ⟨200⟩ ∧
    (Client.Do ⟨2, DefaultRetryCondition, 10, 2, 15⟩ (fun _ => none)
      (fun i => if i = 0 then ⟨some ⟨403⟩, none⟩ else ⟨some ⟨200⟩, none⟩)
      ⟨none, none⟩).err = none :=
  Do_first_nonretryable_returns_unchanged _ _ _ _ 1 (by decide) (fun _ => rfl)
    (by intro i hi
        have h0 : i = 0 := by omega
        subst h0
        decide)
    (by decide)
    (fun e h => nomatch h.1)
    (fun e h => nomatch h)

/-- Claim C2: `Do` returns the sentinel only when the attempt budget
(initial attempt plus maxRetries) is exhausted and the last attempt's
outcome had no transport error; the sentinel then comes with the last
observed response.  Per the configuration contract maxRetries is
non-negative, and no oracle ever produces the sentinel value itself (the
`errors.New` identity of the sentinel). -/
theorem Do_sentinel_only_on_exhaustion
    (c : Client) (ctx : Nat → Option GoError) (transport : Nat → AttemptOutcome)
    (req : Request)
    (hmr : 0 ≤ c.maxRetries)
    (hctx : ∀ k, ctx k ≠ some GoError.maxRetriesExceeded)
    (htr : ∀ i, (transport i).err ≠ some GoError.maxRetriesExceeded)
    (hbody : ∀ e, req.body = some (Except.error e) → e ≠ GoError.maxRetriesExceeded)
    (hget : ∀ e, req.getBody = some (Except.error e) → e ≠ GoError.maxRetriesExceeded)
    (hs : (Client.Do c ctx transport req).err = some GoError.maxRetriesExceeded) :
    (Client.Do c ctx transport req).sent.length = c.maxRetries.toNat + 1 ∧
    (transport c.maxRetries.toNat).err = none ∧
    (Client.Do c ctx transport req).resp = (transport c.maxRetries.toNat).resp := by
  rcases bufferBody_cases req with ⟨e, hb, hg, hberr⟩ | ⟨req', hbuf', hgb⟩
  · have hDo : Client.Do c ctx transport req = ⟨none, some e, [], []⟩ := by
      simp [Client.Do, hberr]
    rw [hDo] at hs
    have he : e = GoError.maxRetriesExceeded := by simpa using hs
    exact absurd he (hbody e hb)
  · have hDo : Client.Do c ctx transport req =
        doLoop c ctx transport ((c.maxRetries + 1).toNat) 0 req' c.initialBackoff none none := by
      simp [Client.Do, hbuf']
    rw [hDo] at hs ⊢
    have hget' : ∀ e, req'.getBody = some (Except.error e) →
        e ≠ GoError.maxRetriesExceeded := by
      rcases hgb with h | ⟨bs, h⟩
      · rw [h]; exact hget
      · rw [h]; intro e he; exact absurd (Option.some.inj he) (fun hh => Except.noConfusion hh)
    obtain ⟨hlen, hdisj⟩ := doLoop_sentinel c ctx transport hctx htr
      ((c.maxRetries + 1).toNat) 0 req' c.initialBackoff none none hget'
      (fun hh => Option.noConfusion hh) hs
    rcases hdisj with ⟨h0, _, _⟩ | ⟨_, hern, hresp⟩
    · omega
    · have hidx : 0 + (c.maxRetries + 1).toNat - 1 = c.maxRetries.toNat := by omega
      rw [hidx] at hern hresp
      exact ⟨by rw [hlen]; omega, hern, hresp⟩

/-- Claim C2 witness: maxRetries = 1, default condition, the transport always
answers 403; the run returns the sentinel after 2 attempts together with the
last 403 response. -/
theorem Do_sentinel_only_on_exhaustion_witness :
    (Client.Do ⟨1, DefaultRetryCondition, 1, 2, 1⟩ (fun _ => none)
      (fun _ => ⟨some ⟨403⟩, none⟩) ⟨none, none⟩).sent.length = 2 ∧
    (AttemptOutcome.mk (some ⟨403⟩) none).err = none ∧
    (Client.Do ⟨1, DefaultRetryCondition, 1, 2, 1⟩ (fun _ => none)
      (fun _ => ⟨some ⟨403⟩, none⟩) ⟨none, none⟩).resp =
      (AttemptOutcome.mk (some ⟨403⟩) none).resp :=
  Do_sentinel_only_on_exhaustion _ _ _ _ (by decide) (fun _ h => nomatch h)
    (fun _ h => nomatch h) (fun _ h => nomatch h) (fun _ h => nomatch h) (by decide)

/-- Claim C3 counterexample: with maxRetries = 0 and an always-true retry
condition the budget is exhausted at the very first attempt, yet the run
records one fully elapsed backoff wait (of the initial 7) before returning
the sentinel — the executor does wait after the final budgeted attempt. -/
theorem Do_waits_after_exhausted_budget_cex :
    (Client.Do ⟨0, fun _ _ => true, 7, 2, 100⟩ (fun _ => none)
      (fun _ => ⟨some ⟨403⟩, none⟩) ⟨none, none⟩).sent.length = 1 ∧
    (Client.Do ⟨0, fun _ _ => true, 7, 2, 100⟩ (fun _ => none)
      (fun _ => ⟨some ⟨403⟩, none⟩) ⟨none, none⟩).err = some GoError.maxRetriesExceeded ∧
    (Client.Do ⟨0, fun _ _ => true, 7, 2, 100⟩ (fun _ => none)
      (fun _ => ⟨some ⟨403⟩, none⟩) ⟨none, none⟩).waits = [7] := by
  decide

/-- Claim C3 amended: when the retry condition judges an outcome retryable,
the executor always enters the backoff wait — also when the attempt budget is
exhausted.  On a run where every outcome is retryable and the context never
fires, the number of fully elapsed waits equals the number of attempts
(maxRetries + 1), one wait after every retryable attempt including the
last; only then is Terminal-Failure synthesized. -/
theorem Do_wait_follows_every_retryable_attempt
    (c : Client) (ctx : Nat → Option GoError) (transport : Nat → AttemptOutcome)
    (req : Request)
    (hmr : 0 ≤ c.maxRetries)
    (hctx : ∀ k, ctx k = none)
    (hret : ∀ i, c.retryCondition (transport i).resp (transport i).err = true)
    (hbuf : ∀ e, ¬(req.body = some (Except.error e) ∧ req.getBody = none))
    (hget : ∀ e, req.getBody ≠ some (Except.error e)) :
    (Client.Do c ctx transport req).sent.length = c.maxRetries.toNat + 1 ∧
    (Client.Do c ctx transport req).waits.length =
      (Client.Do c ctx transport req).sent.length := by
  rcases bufferBody_cases req with ⟨e, hb, hg, _⟩ | ⟨req', hbuf', hgb⟩
  · exact absurd ⟨hb, hg⟩ (hbuf e)
  · have hDo : Client.Do c ctx transport req =
        doLoop c ctx transport ((c.maxRetries + 1).toNat) 0 req' c.initialBackoff none none := by
      simp [Client.Do, hbuf']
    rw [hDo]
    have hget' : ∀ e, req'.getBody ≠ some (Except.error e) := by
      rcases hgb with h | ⟨bs, h⟩
      · rw [h]; exact hget
      · rw [h]; intro e he; exact Except.noConfusion (Option.some.inj he)
    obtain ⟨h1, h2⟩ := doLoop_all_retryable c ctx transport hctx hret
      ((c.maxRetries + 1).toNat) 0 req' c.initialBackoff none none hget'
    exact ⟨by rw [h1]; omega, by rw [h1, h2]⟩

/-- Claim C3 amended witness: maxRetries = 0 and an always-true condition:
one attempt, and equally one completed wait. -/
theorem Do_wait_follows_every_retryable_attempt_witness :
    (Client.Do ⟨0, fun _ _ => true, 7, 2, 100⟩ (fun _ => none)
      (fun _ => ⟨some ⟨403⟩, none⟩) ⟨none, none⟩).sent.length = 1 ∧
    (Client.Do ⟨0, fun _ _ => true, 7, 2, 100⟩ (fun _ => none)
      (fun _ => ⟨some ⟨403⟩, none⟩) ⟨none, none⟩).waits.length =
      (Client.Do ⟨0, fun _ _ => true, 7, 2, 100⟩ (fun _ => none)
        (fun _ => ⟨some ⟨403⟩, none⟩) ⟨none, none⟩).sent.length :=
  Do_wait_follows_every_retryable_attempt _ _ _ _ (by decide) (fun _ => rfl)
    (fun _ => rfl) (fun e h => nomatch h.1) (fun e h => nomatch h)

/-- Claim C4: `DefaultRetryCondition resp err` is true exactly when the error
is non-nil or the response is non-nil with status in [400, 500); on two nil
arguments it returns false. -/
theorem DefaultRetryCondition_spec :
    (∀ resp err, DefaultRetryCondition resp err = true ↔
      (err ≠ none ∨ ∃ r, resp = some r ∧ 400 ≤ r.statusCode ∧ r.statusCode < 500)) ∧
    DefaultRetryCondition none none = false := by
  refine ⟨?_, rfl⟩
  intro resp err
  cases err with
  | some e => simp [DefaultRetryCondition]
  | none =>
    cases resp with
    | none => simp [DefaultRetryCondition]
    | some r =>
      by_cases h : 400 ≤ r.statusCode ∧ r.statusCode < 500 <;>
        simp [DefaultRetryCondition, h]

/-- Claim C6: for a request whose body was captured by the buffering step
(`Body` non-nil, `GetBody` nil on entry), the body delivered to the transport
is the captured byte sequence on every attempt: the `sent` trace is constant
at those bytes. -/
theorem Do_buffered_body_identical_each_attempt
    (c : Client) (ctx : Nat → Option GoError) (transport : Nat → AttemptOutcome)
    (bs : List Nat) :
    (Client.Do c ctx transport ⟨some (Except.ok bs), none⟩).sent =
      List.replicate (Client.Do c ctx transport ⟨some (Except.ok bs), none⟩).sent.length
        (some (Except.ok bs)) := by
  have hDo : Client.Do c ctx transport ⟨some (Except.ok bs), none⟩ =
      doLoop c ctx transport ((c.maxRetries + 1).toNat) 0
        ⟨some (Except.ok bs), some (Except.ok bs)⟩ c.initialBackoff none none := rfl
  rw [hDo]
  exact List.eq_replicate_length.mpr
    (doLoop_sent_const c ctx transport bs ((c.maxRetries + 1).toNat) 0
      c.initialBackoff none none)

/-- Claim C5: for a configuration with multiplier ≥ 1 and
initialBackoff ≤ maxBackoff (durations are non-negative per the
configuration contract), the trace of fully elapsed backoff delays satisfies
the schedule step `next = min(trunc(cur × multiplier), ceiling)`, is
non-decreasing, and never exceeds maxBackoff. -/
theorem Do_backoff_sequence_monotone_capped
    (c : Client) (ctx : Nat → Option GoError) (transport : Nat → AttemptOutcome)
    (req : Request)
    (hm : 1 ≤ c.backoffMultiplier)
    (h0 : 0 ≤ c.initialBackoff)
    (hcap : c.initialBackoff ≤ c.maxBackoff) :
    List.Chain' (fun x y => y = nextBackoff c x) (Client.Do c ctx transport req).waits ∧
    List.Chain' (fun x y => x ≤ y) (Client.Do c ctx transport req).waits ∧
    ∀ w ∈ (Client.Do c ctx transport req).waits, w ≤ c.maxBackoff := by
  cases hb : bufferBody req with
  | error e =>
    have hDo : Client.Do c ctx transport req = ⟨none, some e, [], []⟩ := by
      simp [Client.Do, hb]
    rw [hDo]
    exact ⟨List.chain'_nil, List.chain'_nil, by simp⟩
  | ok req' =>
    have hDo : Client.Do c ctx transport req =
        doLoop c ctx transport ((c.maxRetries + 1).toNat) 0 req' c.initialBackoff none none := by
      simp [Client.Do, hb]
    rw [hDo]
    obtain ⟨hbd, hch⟩ := doLoop_waits_le c ctx transport hm ((c.maxRetries + 1).toNat)
      0 req' c.initialBackoff none none h0 hcap
    exact ⟨doLoop_waits_chain c ctx transport ((c.maxRetries + 1).toNat) 0 req'
      c.initialBackoff none none, hch, hbd⟩

/-- Claim C5 witness: maxRetries = 2, initial 10, multiplier 2, cap 15 with an
always-403 transport: the waits trace is [10, 15, 15], linked by the schedule
step, non-decreasing and capped. -/
theorem Do_backoff_sequence_monotone_capped_witness :
    List.Chain' (fun x y => y = nextBackoff ⟨2, DefaultRetryCondition, 10, 2, 15⟩ x)
      (Client.Do ⟨2, DefaultRetryCondition, 10, 2, 15⟩ (fun _ => none)
        (fun _ => ⟨some ⟨403⟩, none⟩) ⟨none, none⟩).waits ∧
    List.Chain' (fun x y => x ≤ y)
      (Client.Do ⟨2, DefaultRetryCondition, 10, 2, 15⟩ (fun _ => none)
        (fun _ => ⟨some ⟨403⟩, none⟩) ⟨none, none⟩).waits ∧
    ∀ w ∈ (Client.Do ⟨2, DefaultRetryCondition, 10, 2, 15⟩ (fun _ => none)
        (fun _ => ⟨some ⟨403⟩, none⟩) ⟨none, none⟩).waits,
      w ≤ (15 : Int) :=
  Do_backoff_sequence_monotone_capped _ _ _ _ (by norm_num) (by decide) (by decide)

/-- Claim C7: if the cancellation signal has already fired at the checkpoint
before the first attempt, `Do` makes zero attempts and returns a nil response
together with the signal's own error (provided body buffering succeeds, which
precedes the check, and maxRetries is non-negative so the loop is entered). -/
theorem Do_cancelled_before_first_attempt
    (c : Client) (ctx : Nat → Option GoError) (transport : Nat → AttemptOutcome)
    (req : Request) (cerr : GoError)
    (hmr : 0 ≤ c.maxRetries)
    (hbuf : ∀ e, ¬(req.body = some (Except.error e) ∧ req.getBody = none))
    (hc : ctx 0 = some cerr) :
    Client.Do c ctx transport req = ⟨none, some cerr, [], []⟩ := by
  rcases bufferBody_cases req with ⟨e, hb, hg, _⟩ | ⟨req', hbuf', _⟩
  · exact absurd ⟨hb, hg⟩ (hbuf e)
  · have hDo : Client.Do c ctx transport req =
        doLoop c ctx transport ((c.maxRetries + 1).toNat) 0 req' c.initialBackoff none none := by
      simp [Client.Do, hbuf']
    rw [hDo]
    obtain ⟨f, hf⟩ : ∃ f, (c.maxRetries + 1).toNat = f + 1 := ⟨c.maxRetries.toNat, by omega⟩
    rw [hf]
    simp [doLoop, hc]

/-- Claim C7 witness: a context already cancelled at checkpoint 0: no attempt
is made and the cancellation error comes back with a nil response. -/
theorem Do_cancelled_before_first_attempt_witness :
    Client.Do ⟨5, DefaultRetryCondition, 10, 2, 15⟩ (fun _ => some GoError.canceled)
      (fun _ => ⟨some ⟨200⟩, none⟩) ⟨none, none⟩ =
      ⟨none, some GoError.canceled, [], []⟩ :=
  Do_cancelled_before_first_attempt _ _ _ _ _ (by decide) (fun e h => nomatch h.1) rfl

/-- Claim C8: with maxRetries = 0 the loop has a budget of a single
iteration, so at most one attempt is made for every retry condition, context,
transport and request. -/
theorem Do_maxRetries_zero_at_most_one_attempt
    (c : Client) (ctx : Nat → Option GoError) (transport : Nat → AttemptOutcome)
    (req : Request) (h : c.maxRetries = 0) :
    (Client.Do c ctx transport req).sent.length ≤ 1 := by
  cases hb : bufferBody req with
  | error e =>
    have hDo : Client.Do c ctx transport req = ⟨none, some e, [], []⟩ := by
      simp [Client.Do, hb]
    rw [hDo]
    simp
  | ok req' =>
    have hDo : Client.Do c ctx transport req =
        doLoop c ctx transport ((c.maxRetries + 1).toNat) 0 req' c.initialBackoff none none := by
      simp [Client.Do, hb]
    rw [hDo]
    have hlen := doLoop_sent_length_le c ctx transport ((c.maxRetries + 1).toNat)
      0 req' c.initialBackoff none none
    have : ((c.maxRetries + 1).toNat) = 1 := by omega
    omega

/-- Claim C8 witness: an always-true retry condition with maxRetries = 0
still yields at most one attempt. -/
theorem Do_maxRetries_zero_at_most_one_attempt_witness :
    (Client.Do ⟨0, fun _ _ => true, 10, 2, 15⟩ (fun _ => none)
      (fun _ => ⟨some ⟨500⟩, none⟩) ⟨none, none⟩).sent.length ≤ 1 :=
  Do_maxRetries_zero_at_most_one_attempt _ _ _ _ rfl

/-- Claim C9: if reading the request body during buffering fails with error
`e`, `Do` returns immediately: nil response, the read error itself, zero
attempts and zero waits. -/
theorem Do_buffering_read_error_aborts
    (c : Client) (ctx : Nat → Option GoError) (transport : Nat → AttemptOutcome)
    (e : GoError) :
    Client.Do c ctx transport ⟨some (Except.error e), none⟩ =
      ⟨none, some e, [], []⟩ := rfl

/-- Claim C10: whenever any wait occurs, the first fully elapsed wait is
exactly initialBackoff — the min-with-maxBackoff cap is applied only when
advancing the delay, so with initialBackoff > maxBackoff the first wait
exceeds maxBackoff. -/
theorem Do_first_wait_is_initialBackoff
    (c : Client) (ctx : Nat → Option GoError) (transport : Nat → AttemptOutcome)
    (req : Request)
    (hw : (Client.Do c ctx transport req).waits ≠ []) :
    (Client.Do c ctx transport req).waits.head? = some c.initialBackoff ∧
    (c.maxBackoff < c.initialBackoff →
      ∃ w, (Client.Do c ctx transport req).waits.head? = some w ∧ c.maxBackoff < w) := by
  cases hb : bufferBody req with
  | error e =>
    have hDo : Client.Do c ctx transport req = ⟨none, some e, [], []⟩ := by
      simp [Client.Do, hb]
    rw [hDo] at hw
    exact absurd rfl hw
  | ok req' =>
    have hDo : Client.Do c ctx transport req =
        doLoop c ctx transport ((c.maxRetries + 1).toNat) 0 req' c.initialBackoff none none := by
      simp [Client.Do, hb]
    rw [hDo] at hw ⊢
    rcases doLoop_waits_head c ctx transport ((c.maxRetries + 1).toNat) 0 req'
      c.initialBackoff none none with hnil | hhd
    · exact absurd hnil hw
    · exact ⟨hhd, fun hlt => ⟨c.initialBackoff, hhd, hlt⟩⟩

/-- Claim C10 witness: initialBackoff 7 exceeds maxBackoff 3; the single
recorded wait is 7, above the cap. -/
theorem Do_first_wait_is_initialBackoff_witness :
    (Client.Do ⟨0, fun _ _ => true, 7, 2, 3⟩ (fun _ => none)
      (fun _ => ⟨some ⟨403⟩, none⟩) ⟨none, none⟩).waits.head? = some 7 ∧
    ((3 : Int) < 7 →
      ∃ w, (Client.Do ⟨0, fun _ _ => true, 7, 2, 3⟩ (fun _ => none)
        (fun _ => ⟨some ⟨403⟩, none⟩) ⟨none, none⟩).waits.head? = some w ∧ (3 : Int) < w) :=
  Do_first_wait_is_initialBackoff _ _ _ _ (by decide)
